import Mathlib

/-!
Verification of the Relay-Timer sketch (src/Relay_Timer2/Relay_Timer2.ino).
The sketch is a countdown timer: a rotary encoder sets a set point in 5-second
units, a key press arms the timer, a relay output is driven while the timer is
active, and a multiplexed 4-digit 7-segment display shows the remaining time.

The shallow embedding below translates the state machine of loop() into a pure
step function on an explicit state record, machine integers are modelled as
Nat or Int with explicit reductions modulo two to the relevant power, and the
two display routines are modelled as pure functions emitting a trace of pin
events.
-/

set_option maxRecDepth 4096

namespace RelayTimer

/-- FSM states, from the source enumeration
typedef enum state_t \x7b S_INIT, S_IDLE, S_START, S_RUNNING, S_PAUSE, S_END \x7d. -/
inductive State where
  | S_INIT
  | S_IDLE
  | S_START
  | S_RUNNING
  | S_PAUSE
  | S_END
deriving DecidableEq

/-- Rotary-encoder poll result alphabet of MD_REncoder.read(). -/
inductive EncDir where
  | DIR_NONE
  | DIR_CW
  | DIR_CCW
deriving DecidableEq

/-- Key-switch poll result alphabet of MD_KeySwitch.read(). -/
inductive KeyEv where
  | KS_NULL
  | KS_PRESS
  | KS_LONGPRESS
deriving DecidableEq

/-- const uint8_t TIME_MAX_MINUTES = 99. -/
def TIME_MAX_MINUTES : Nat := 99

/-- const uint8_t TIME_INTERVAL = 5 (smallest time interval in seconds). -/
def TIME_INTERVAL : Nat := 5

/-- const uint16_t TIME_MAX_SP = ((TIME_MAX_MINUTES * 60) + 59) / TIME_INTERVAL. -/
def TIME_MAX_SP : Nat := ((TIME_MAX_MINUTES * 60) + 59) / TIME_INTERVAL

/-- Modulus of the 32-bit unsigned integers (millis counter, timeStart). -/
def U32 : Nat := 4294967296

/-- Conversion of an unsigned value to int8_t, as performed by the assignments
to the int8_t variables minutes and seconds: wrap modulo 256 into [-128, 127]. -/
def toInt8 (x : Nat) : Int :=
  if x % 256 < 128 then (x % 256 : Int) else (x % 256 : Int) - 256

/-- Unsigned 32-bit subtraction a - b, as computed by the C expression
millis() - timeStart on uint32_t operands. -/
def u32Sub (a b : Nat) : Nat :=
  (a % U32 + U32 - b % U32) % U32

/-- The mutable state owned by loop(): the static locals state, setPoint,
minutes, seconds, timeStart, inMessage, together with the level of the relay
output pin OUTPUT_PIN. minutes and seconds are int8_t in the source, modelled
as Int; setPoint is uint16_t and timeStart uint32_t, modelled as Nat. -/
structure Timer where
  state : State
  setPoint : Nat
  minutes : Int
  seconds : Int
  timeStart : Nat
  inMessage : Bool
  relay : Bool
deriving DecidableEq

/-- The environment sampled during one pass of loop(): the millis() reading,
the encoder event RE.read() and the key event SW.read(). -/
structure Input where
  now : Nat
  enc : EncDir
  key : KeyEv
deriving DecidableEq

/-- State at power-up: the static locals start as S_INIT, 0, 0, 0, 0, false,
and setup() leaves the relay pin low. -/
def startTimer : Timer :=
  { state := State.S_INIT, setPoint := 0, minutes := 0, seconds := 0,
    timeStart := 0, inMessage := false, relay := false }

/-- The rotary-encoder switch block of the S_IDLE case:
case DIR_CW: if (setPoint < TIME_MAX_SP) setPoint++;
case DIR_CCW: if (setPoint > 0) setPoint--. -/
def encoderSp (sp : Nat) : EncDir → Nat
  | EncDir.DIR_CW => if sp < TIME_MAX_SP then sp + 1 else sp
  | EncDir.DIR_CCW => if sp > 0 then sp - 1 else sp
  | EncDir.DIR_NONE => sp

/-- The time-counter block of the S_RUNNING case:
if (millis() - timeStart >= 1000) \x7b timeStart += 1000;
  if (seconds != 0) seconds--;
  else \x7b seconds = 59; if (minutes != 0) minutes--; else state = S_END; \x7d \x7d -/
def tickTimer (t : Timer) (now : Nat) : Timer :=
  if u32Sub now t.timeStart ≥ 1000 then
    let ts := (t.timeStart + 1000) % U32
    if t.seconds ≠ 0 then
      { t with timeStart := ts, seconds := t.seconds - 1 }
    else if t.minutes ≠ 0 then
      { t with timeStart := ts, seconds := 59, minutes := t.minutes - 1 }
    else
      { t with timeStart := ts, seconds := 59, state := State.S_END }
  else t

/-- One pass through the switch statement of loop(), translated case by case
from the source. The display call at the top of loop() has no effect on this
state record and is modelled separately. -/
def loopStep (t : Timer) (inp : Input) : Timer :=
  match t.state with
  | State.S_INIT =>
      -- uint16_t totalSeconds = setPoint * TIME_INTERVAL;
      -- seconds = totalSeconds % 60; minutes = totalSeconds / 60;
      -- if (minutes > TIME_MAX_MINUTES) minutes = TIME_MAX_MINUTES;
      -- state = S_IDLE;
      let totalSeconds := (t.setPoint * TIME_INTERVAL) % 65536
      let s := toInt8 (totalSeconds % 60)
      let m := toInt8 (totalSeconds / 60)
      let m := if m > (TIME_MAX_MINUTES : Int) then (TIME_MAX_MINUTES : Int) else m
      { t with seconds := s, minutes := m, state := State.S_IDLE }
  | State.S_IDLE =>
      -- encoder block, then: if (x != DIR_NONE) state = S_INIT;
      -- if (SW.read() == KS_PRESS && setPoint != 0) state = S_START;
      let sp := encoderSp t.setPoint inp.enc
      let st := if inp.enc ≠ EncDir.DIR_NONE then State.S_INIT else t.state
      let st := if inp.key = KeyEv.KS_PRESS ∧ sp ≠ 0 then State.S_START else st
      { t with setPoint := sp, state := st }
  | State.S_START =>
      -- timeStart = millis(); digitalWrite(OUTPUT_PIN, HIGH); state = S_RUNNING;
      { t with timeStart := inp.now % U32, relay := true, state := State.S_RUNNING }
  | State.S_RUNNING =>
      -- time-counter block, then: if (SW.read() == KS_PRESS) state = S_PAUSE;
      let t1 := tickTimer t inp.now
      if inp.key = KeyEv.KS_PRESS then { t1 with state := State.S_PAUSE } else t1
  | State.S_PAUSE =>
      -- inMessage = true; displayMessage("pause", 50);
      -- case KS_PRESS: timeStart = millis(); inMessage = false; state = S_RUNNING;
      -- case KS_LONGPRESS: inMessage = false; state = S_END;
      let t1 := { t with inMessage := true }
      match inp.key with
      | KeyEv.KS_PRESS =>
          { t1 with timeStart := inp.now % U32, inMessage := false,
                    state := State.S_RUNNING }
      | KeyEv.KS_LONGPRESS =>
          { t1 with inMessage := false, state := State.S_END }
      | KeyEv.KS_NULL => t1
  | State.S_END =>
      -- digitalWrite(OUTPUT_PIN, LOW); displayMessage("end"); state = S_INIT;
      { t with relay := false, state := State.S_INIT }

/-- Iterated loop passes over a list of sampled inputs. -/
def run (t : Timer) (ins : List Input) : Timer :=
  ins.foldl loopStep t

/-- The relay level observed at every loop boundary of a run, including the
initial one. -/
def relayTrace (t : Timer) (ins : List Input) : List Bool :=
  (List.scanl loopStep t ins).map Timer.relay

/-- Number of true-to-false transitions in a boolean trace. -/
def fallCount : List Bool → Nat
  | true :: false :: rest => 1 + fallCount (false :: rest)
  | _ :: rest => fallCount rest
  | [] => 0

/-! Display model.  digitPin[] holds the 4 digit-select lines, index 0 being
the least significant (rightmost) digit and index 3 the most significant
(leftmost) digit, per the source comment.  The two rendering routines are
modelled as pure functions emitting the trace of pin operations they perform:
turning a digit-select line off, committing a segment pattern (the
updateSegments or spiSend call), and turning a digit-select line on. -/

/-- const PROGMEM uint8_t digits[]: 7-segment patterns for 0 to 9. -/
def digits : List Nat :=
  [0x3f, 0x06, 0x5b, 0x4f, 0x66, 0x6d, 0x7d, 0x07, 0x7f, 0x6f]

/-- const PROGMEM uint8_t alphaTable[]: 7-segment patterns for A to Z
(named alpha in the source). -/
def alphaTable : List Nat :=
  [0x77, 0x7c, 0x39, 0x5e, 0x79, 0x71,
   0x3d, 0x76, 0x06, 0x0e, 0x00, 0x38,
   0x00, 0x54, 0x3f, 0x73, 0x67, 0x60,
   0x6d, 0x78, 0x3e, 0x3e, 0x00, 0x00,
   0x6e, 0x5b]

/-- const uint8_t DECIMAL = 0x80: the decimal-point bit. -/
def DECIMAL : Nat := 0x80

/-- One pin operation performed by a rendering routine. -/
inductive DispEvent where
  | digitOff (j : Nat)
  | segWrite (v : Nat)
  | digitOn (i : Nat)
deriving DecidableEq

/-- The body of one digit slot of either rendering loop: turn all four digit
lines off (the inner j loop), commit the segment pattern v, then turn digit
line i on. -/
def sweepStep (v i : Nat) : List DispEvent :=
  [DispEvent.digitOff 0, DispEvent.digitOff 1, DispEvent.digitOff 2,
   DispEvent.digitOff 3, DispEvent.segWrite v, DispEvent.digitOn i]

/-- The i loop of displayTime: n iterations remaining, current digit index i
(starting at 0, the rightmost digit), current value val; each iteration takes
dig = val % 10, divides val by 10, and emits one sweepStep whose pattern is
digits[dig] plus DECIMAL when decDigit == i. -/
def displayTimeAux (decDigit : Nat) : Nat → Nat → Nat → List DispEvent
  | _, _, 0 => []
  | val, i, n + 1 =>
      sweepStep (digits.getD (val % 10) 0 + (if decDigit = i then DECIMAL else 0)) i
        ++ displayTimeAux decDigit (val / 10) (i + 1) n

/-- The pin-event trace of one call displayTime(val, decDigit); val is a
uint16_t argument. -/
def displayTimeEvents (val decDigit : Nat) : List DispEvent :=
  displayTimeAux decDigit (val % 65536) 0 4

/-- Pattern lookup v = alphaTable[toupper(c) - 65] for a message character. -/
def alphaPattern (c : Char) : Nat :=
  alphaTable.getD (c.toUpper.toNat - 65) 0

/-- The i loop of displayMessage (one multiplexing sweep of the while loop):
i counts down from 3 to 0; while message characters remain, each slot shows
the next character, afterwards the blank pattern 0. -/
def displayMessageAux : List Char → Nat → List DispEvent
  | _, 0 => []
  | [], n + 1 => sweepStep 0 n ++ displayMessageAux [] n
  | c :: rest, n + 1 => sweepStep (alphaPattern c) n ++ displayMessageAux rest n

/-- The pin-event trace of one sweep of displayMessage(mesg, duration). -/
def displayMessageSweep (mesg : List Char) : List DispEvent :=
  displayMessageAux mesg 4

/-- The four digit-select line levels (true = DIGIT_ON). -/
structure DigitLines where
  d0 : Bool
  d1 : Bool
  d2 : Bool
  d3 : Bool
deriving DecidableEq

/-- All digit lines off, the level established by setup(). -/
def offLines : DigitLines :=
  { d0 := false, d1 := false, d2 := false, d3 := false }

/-- Write level b to digit line j (digitalWrite(digitPin[j], ...)). -/
def setLine (s : DigitLines) (j : Nat) (b : Bool) : DigitLines :=
  match j with
  | 0 => { s with d0 := b }
  | 1 => { s with d1 := b }
  | 2 => { s with d2 := b }
  | 3 => { s with d3 := b }
  | _ => s

/-- Effect of one pin event on the digit-select lines. -/
def stepEvent (s : DigitLines) : DispEvent → DigitLines
  | DispEvent.digitOff j => setLine s j false
  | DispEvent.digitOn i => setLine s i true
  | DispEvent.segWrite _ => s

/-- Digit-select line state after a trace of pin events. -/
def runEvents (s : DigitLines) (es : List DispEvent) : DigitLines :=
  es.foldl stepEvent s

/-- Number of digit-select lines currently enabled. -/
def onCount (s : DigitLines) : Nat :=
  (cond s.d0 1 0) + (cond s.d1 1 0) + (cond s.d2 1 0) + (cond s.d3 1 0)

/-- After every single pin event of the trace, at most one digit-select line
is enabled. -/
def okTrace (s : DigitLines) : List DispEvent → Bool
  | [] => true
  | e :: es => decide (onCount (stepEvent s e) ≤ 1) && okTrace (stepEvent s e) es

/-- The trace is a sequence of blocks, each of which turns digit lines 0, 1,
2, 3 off in order, then commits one segment pattern, then enables exactly one
existing digit line. -/
def blocksShaped : List DispEvent → Bool
  | [] => true
  | DispEvent.digitOff 0 :: DispEvent.digitOff 1 :: DispEvent.digitOff 2 ::
      DispEvent.digitOff 3 :: DispEvent.segWrite _ :: DispEvent.digitOn i :: rest =>
      decide (i < 4) && blocksShaped rest
  | _ => false

/-- Segment patterns committed by a trace, in emission order (least
significant digit first for displayTime). -/
def segWrites (es : List DispEvent) : List Nat :=
  es.filterMap (fun e =>
    match e with
    | DispEvent.segWrite v => some v
    | _ => none)

/-- Segment patterns of displayTime(val, decDigit) listed left to right in
physical order: digit line 3 is the leftmost digit, so the emission order is
reversed. -/
def patternsLTR (val decDigit : Nat) : List Nat :=
  (segWrites (displayTimeEvents val decDigit)).reverse

/-! Helper lemmas about the state machine. -/

/-- Representation and range invariant of the loop state: the set point never
exceeds TIME_MAX_SP, minutes stays within 0 to 99, seconds within 0 to 59, and
timeStart is a reduced 32-bit value. -/
def TimerInv (t : Timer) : Prop :=
  t.setPoint ≤ TIME_MAX_SP ∧ 0 ≤ t.minutes ∧ t.minutes ≤ 99 ∧
    0 ≤ t.seconds ∧ t.seconds ≤ 59 ∧ t.timeStart < U32

instance (t : Timer) : Decidable (TimerInv t) := by
  unfold TimerInv; infer_instance

/-- The relay invariant that holds at every loop boundary: the relay level
equals true exactly in the S_RUNNING, S_PAUSE and S_END states (the level is
raised while processing S_START, observable from S_RUNNING on, and lowered
while processing S_END, observable from S_INIT on). -/
def RelayInv (t : Timer) : Prop :=
  t.relay = true ↔
    (t.state = State.S_RUNNING ∨ t.state = State.S_PAUSE ∨ t.state = State.S_END)

instance (t : Timer) : Decidable (RelayInv t) := by
  unfold RelayInv; infer_instance

/-- An input sample with neither encoder nor key activity. -/
def iQuiet (n : Nat) : Input :=
  { now := n, enc := EncDir.DIR_NONE, key := KeyEv.KS_NULL }

/-- Input sequence reaching the S_START boundary: settle into S_IDLE, one
clockwise click (set point 1, back through S_INIT), settle, then press. -/
def c1Inputs : List Input :=
  [iQuiet 0, { now := 0, enc := EncDir.DIR_CW, key := KeyEv.KS_NULL }, iQuiet 0,
   { now := 0, enc := EncDir.DIR_NONE, key := KeyEv.KS_PRESS }]

/-- Input sequence for the 5-second scenario: dial set point 1, arm at
10000 ms, then quiet passes; ticks fire at 11000 through 16000 ms. -/
def c4Inputs : List Input :=
  c1Inputs ++
    [iQuiet 10000, iQuiet 10400, iQuiet 11000, iQuiet 12000, iQuiet 13000,
     iQuiet 14000, iQuiet 15000, iQuiet 15500, iQuiet 16000, iQuiet 16010]

/-- A running state just below the 32-bit millisecond rollover, used to
instantiate the tick theorems. -/
def rollTimer : Timer :=
  { state := State.S_RUNNING, setPoint := 6, minutes := 0, seconds := 30,
    timeStart := 4294966796, inMessage := false, relay := true }

/-- A running state with remaining time 0:00. -/
def zeroTimer : Timer :=
  { state := State.S_RUNNING, setPoint := 1, minutes := 0, seconds := 0,
    timeStart := 0, inMessage := false, relay := true }

/-- An S_INIT state with the maximal set point. -/
def c3Timer : Timer :=
  { state := State.S_INIT, setPoint := 1199, minutes := 0, seconds := 0,
    timeStart := 0, inMessage := false, relay := false }

/-- A running state used by the pause and resume witness. -/
def c7Timer : Timer :=
  { state := State.S_RUNNING, setPoint := 3, minutes := 0, seconds := 11,
    timeStart := 20000, inMessage := false, relay := true }

theorem timerInv_start : TimerInv startTimer := by decide

theorem toInt8_small (x : Nat) (h : x < 128) : toInt8 x = (x : Int) := by
  unfold toInt8
  rw [if_pos (show x % 256 < 128 by omega)]
  omega

theorem TIME_MAX_SP_eq : TIME_MAX_SP = 1199 := by decide

/-! Unfolding lemmas, one per case of the switch statement. -/

theorem loopStep_init_eq (t : Timer) (inp : Input) (hst : t.state = State.S_INIT) :
    loopStep t inp =
      { t with
        seconds := toInt8 ((t.setPoint * TIME_INTERVAL) % 65536 % 60),
        minutes :=
          if toInt8 ((t.setPoint * TIME_INTERVAL) % 65536 / 60) > (TIME_MAX_MINUTES : Int)
          then (TIME_MAX_MINUTES : Int)
          else toInt8 ((t.setPoint * TIME_INTERVAL) % 65536 / 60),
        state := State.S_IDLE } := by
  simp only [loopStep, hst]

theorem loopStep_idle_eq (t : Timer) (inp : Input) (hst : t.state = State.S_IDLE) :
    loopStep t inp =
      { t with
        setPoint := encoderSp t.setPoint inp.enc,
        state :=
          if inp.key = KeyEv.KS_PRESS ∧ encoderSp t.setPoint inp.enc ≠ 0 then State.S_START
          else if inp.enc ≠ EncDir.DIR_NONE then State.S_INIT
          else State.S_IDLE } := by
  simp only [loopStep, hst]

theorem loopStep_start_eq (t : Timer) (inp : Input) (hst : t.state = State.S_START) :
    loopStep t inp =
      { t with timeStart := inp.now % U32, relay := true, state := State.S_RUNNING } := by
  simp only [loopStep, hst]

theorem loopStep_running_eq (t : Timer) (inp : Input) (hst : t.state = State.S_RUNNING) :
    loopStep t inp =
      (if inp.key = KeyEv.KS_PRESS
       then { tickTimer t inp.now with state := State.S_PAUSE }
       else tickTimer t inp.now) := by
  simp only [loopStep, hst]

theorem loopStep_pause_eq (t : Timer) (inp : Input) (hst : t.state = State.S_PAUSE) :
    loopStep t inp =
      (match inp.key with
       | KeyEv.KS_PRESS =>
           { t with timeStart := inp.now % U32, inMessage := false,
                    state := State.S_RUNNING }
       | KeyEv.KS_LONGPRESS => { t with inMessage := false, state := State.S_END }
       | KeyEv.KS_NULL => { t with inMessage := true }) := by
  cases hk : inp.key <;> simp only [loopStep, hst, hk]

theorem loopStep_end_eq (t : Timer) (inp : Input) (hst : t.state = State.S_END) :
    loopStep t inp = { t with relay := false, state := State.S_INIT } := by
  simp only [loopStep, hst]

/-! Facts about the building blocks. -/

theorem encoderSp_le (sp : Nat) (e : EncDir) (h : sp ≤ TIME_MAX_SP) :
    encoderSp sp e ≤ TIME_MAX_SP := by
  cases e <;> simp only [encoderSp] <;> (try split_ifs) <;> omega

theorem tickTimer_fields (t : Timer) (now : Nat) :
    (tickTimer t now).setPoint = t.setPoint ∧
    (tickTimer t now).relay = t.relay ∧
    (tickTimer t now).inMessage = t.inMessage := by
  unfold tickTimer
  split_ifs <;> simp

theorem tickTimer_state (t : Timer) (now : Nat) :
    (tickTimer t now).state = t.state ∨ (tickTimer t now).state = State.S_END := by
  unfold tickTimer
  split_ifs <;> simp

/-- Fields produced by the S_INIT case for an in-range set point. -/
theorem initFields (t : Timer) (inp : Input) (hst : t.state = State.S_INIT)
    (hsp : t.setPoint ≤ TIME_MAX_SP) :
    (loopStep t inp).seconds = ((t.setPoint * 5) % 60 : Nat) ∧
    (loopStep t inp).minutes = ((t.setPoint * 5) / 60 : Nat) ∧
    (loopStep t inp).state = State.S_IDLE := by
  have hsp' : t.setPoint ≤ 1199 := TIME_MAX_SP_eq ▸ hsp
  have h65 : t.setPoint * TIME_INTERVAL % 65536 = t.setPoint * 5 := by
    rw [TIME_INTERVAL, Nat.mod_eq_of_lt (by omega)]
  have hdiv : t.setPoint * 5 / 60 < 128 := by omega
  rw [loopStep_init_eq t inp hst]
  rw [h65] at *
  constructor
  · simp [toInt8_small _ (show t.setPoint * 5 % 60 < 128 by omega)]
  constructor
  · simp only [toInt8_small _ hdiv]
    rw [if_neg (by
      have : t.setPoint * 5 / 60 ≤ 99 := by omega
      simp [TIME_MAX_MINUTES]
      omega)]
  · rfl

theorem timerInv_step (t : Timer) (inp : Input) (h : TimerInv t) :
    TimerInv (loopStep t inp) := by
  obtain ⟨h1, h2, h3, h4, h5, h6⟩ := h
  have hU : (0 : Nat) < U32 := by decide
  cases hst : t.state
  case S_INIT =>
    obtain ⟨e1, e2, e3⟩ := initFields t inp hst h1
    have hsp' : t.setPoint ≤ 1199 := TIME_MAX_SP_eq ▸ h1
    have hspf : (loopStep t inp).setPoint = t.setPoint := by
      rw [loopStep_init_eq t inp hst]
    have htsf : (loopStep t inp).timeStart = t.timeStart := by
      rw [loopStep_init_eq t inp hst]
    refine ⟨hspf ▸ h1, ?_, ?_, ?_, ?_, htsf ▸ h6⟩
    · rw [e2]; omega
    · rw [e2]
      have hb : t.setPoint * 5 / 60 ≤ 99 := by omega
      exact_mod_cast hb
    · rw [e1]; omega
    · rw [e1]
      have hb : t.setPoint * 5 % 60 ≤ 59 := by omega
      exact_mod_cast hb
  case S_IDLE =>
    rw [loopStep_idle_eq t inp hst]
    exact ⟨encoderSp_le _ _ h1, h2, h3, h4, h5, h6⟩
  case S_START =>
    rw [loopStep_start_eq t inp hst]
    exact ⟨h1, h2, h3, h4, h5, Nat.mod_lt _ hU⟩
  case S_RUNNING =>
    rw [loopStep_running_eq t inp hst]
    have hmod : (t.timeStart + 1000) % U32 < U32 := Nat.mod_lt _ hU
    have htk : TimerInv (tickTimer t inp.now) := by
      unfold TimerInv tickTimer
      split_ifs with hc hs hm
      · exact ⟨h1, h2, h3,
          show (0 : Int) ≤ t.seconds - 1 by omega,
          show t.seconds - 1 ≤ 59 by omega, hmod⟩
      · exact ⟨h1,
          show (0 : Int) ≤ t.minutes - 1 by omega,
          show t.minutes - 1 ≤ 99 by omega,
          show (0 : Int) ≤ 59 by omega,
          show (59 : Int) ≤ 59 by omega, hmod⟩
      · exact ⟨h1, h2, h3,
          show (0 : Int) ≤ 59 by omega,
          show (59 : Int) ≤ 59 by omega, hmod⟩
      · exact ⟨h1, h2, h3, h4, h5, h6⟩
    obtain ⟨k1, k2, k3, k4, k5, k6⟩ := htk
    split_ifs
    · exact ⟨k1, k2, k3, k4, k5, k6⟩
    · exact ⟨k1, k2, k3, k4, k5, k6⟩
  case S_PAUSE =>
    rw [loopStep_pause_eq t inp hst]
    cases inp.key <;>
      first
      | exact ⟨h1, h2, h3, h4, h5, h6⟩
      | exact ⟨h1, h2, h3, h4, h5, Nat.mod_lt _ hU⟩
  case S_END =>
    rw [loopStep_end_eq t inp hst]
    exact ⟨h1, h2, h3, h4, h5, h6⟩

/-- The set point never grows beyond TIME_MAX_SP in a single pass. -/
theorem setPoint_le_step (t : Timer) (inp : Input) (h : t.setPoint ≤ TIME_MAX_SP) :
    (loopStep t inp).setPoint ≤ TIME_MAX_SP := by
  cases hst : t.state
  case S_IDLE =>
    rw [loopStep_idle_eq t inp hst]
    exact encoderSp_le _ _ h
  case S_RUNNING =>
    rw [loopStep_running_eq t inp hst]
    have := (tickTimer_fields t inp.now).1
    split_ifs <;> simp_all
  case S_PAUSE =>
    rw [loopStep_pause_eq t inp hst]
    cases inp.key <;> exact h
  all_goals
    first
    | (rw [loopStep_init_eq t inp hst]; exact h)
    | (rw [loopStep_start_eq t inp hst]; exact h)
    | (rw [loopStep_end_eq t inp hst]; exact h)

/-- Arithmetic of one time-counter evaluation: when at least 1000 ms of the
32-bit clock have elapsed since timeStart and the remaining time is not 0:00,
timeStart advances by exactly 1000 (mod 2^32), the total remaining seconds
drop by exactly one, and the residual elapsed time drops by exactly 1000;
below 1000 ms elapsed, nothing changes. -/
theorem tickTimer_spec (t : Timer) (now : Nat)
    (_hts : t.timeStart < U32) (_hnow : now < U32) :
    (u32Sub now t.timeStart ≥ 1000 → ¬(t.minutes = 0 ∧ t.seconds = 0) →
      (tickTimer t now).timeStart = (t.timeStart + 1000) % U32 ∧
      60 * (tickTimer t now).minutes + (tickTimer t now).seconds
        = 60 * t.minutes + t.seconds - 1 ∧
      u32Sub now (tickTimer t now).timeStart = u32Sub now t.timeStart - 1000) ∧
    (u32Sub now t.timeStart < 1000 → tickTimer t now = t) := by
  constructor
  · intro htick hnz
    have hcarry : u32Sub now ((t.timeStart + 1000) % U32)
        = u32Sub now t.timeStart - 1000 := by
      simp only [u32Sub, U32] at htick ⊢
      omega
    unfold tickTimer
    rw [if_pos htick]
    by_cases hsz : t.seconds = 0
    · have hmz : t.minutes ≠ 0 := fun hmz => hnz ⟨hmz, hsz⟩
      rw [if_neg (by simp [hsz]), if_pos hmz]
      refine ⟨rfl, ?_, hcarry⟩
      show 60 * (t.minutes - 1) + 59 = 60 * t.minutes + t.seconds - 1
      omega
    · rw [if_pos hsz]
      refine ⟨rfl, ?_, hcarry⟩
      show 60 * t.minutes + (t.seconds - 1) = 60 * t.minutes + t.seconds - 1
      omega
  · intro hlt
    unfold tickTimer
    rw [if_neg (by omega)]

/-- The countdown fields of loopStep in S_RUNNING agree with those of the
time-counter block, whatever the key event does to the state. -/
theorem running_fields (t : Timer) (inp : Input) (hst : t.state = State.S_RUNNING) :
    (loopStep t inp).timeStart = (tickTimer t inp.now).timeStart ∧
    (loopStep t inp).minutes = (tickTimer t inp.now).minutes ∧
    (loopStep t inp).seconds = (tickTimer t inp.now).seconds := by
  rw [loopStep_running_eq t inp hst]
  split_ifs <;> exact ⟨rfl, rfl, rfl⟩

/-- Claim C2: while running, the remaining duration is decremented by exactly
one second each time at least 1000 ms of the 32-bit millisecond clock have
elapsed since timeStart, timeStart is then advanced by exactly 1000 ms rather
than reset to now, the comparison is 32-bit modular subtraction (correct
across rollover), and the residual elapsed time is carried over in full, so
no pending second is lost. -/
theorem c2_running_tick (t : Timer) (inp : Input)
    (hst : t.state = State.S_RUNNING)
    (hts : t.timeStart < U32) (hnow : inp.now < U32) :
    (u32Sub inp.now t.timeStart ≥ 1000 → ¬(t.minutes = 0 ∧ t.seconds = 0) →
      (loopStep t inp).timeStart = (t.timeStart + 1000) % U32 ∧
      60 * (loopStep t inp).minutes + (loopStep t inp).seconds
        = 60 * t.minutes + t.seconds - 1 ∧
      u32Sub inp.now (loopStep t inp).timeStart
        = u32Sub inp.now t.timeStart - 1000) ∧
    (u32Sub inp.now t.timeStart < 1000 →
      (loopStep t inp).timeStart = t.timeStart ∧
      (loopStep t inp).minutes = t.minutes ∧
      (loopStep t inp).seconds = t.seconds) := by
  obtain ⟨f1, f2, f3⟩ := running_fields t inp hst
  obtain ⟨hfire, hidle⟩ := tickTimer_spec t inp.now hts hnow
  constructor
  · intro htick hnz
    obtain ⟨g1, g2, g3⟩ := hfire htick hnz
    exact ⟨f1.trans g1, by rw [f2, f3]; exact g2, by rw [f1]; exact g3⟩
  · intro hlt
    have he := hidle hlt
    exact ⟨by rw [f1, he], by rw [f2, he], by rw [f3, he]⟩

/-- Witness for C2 at a concrete rollover input: timeStart is 500 below the
32-bit wrap, now is 600 past it, so 1100 ms have elapsed; the tick fires,
advances timeStart by 1000 across the wrap and drops 0:30 to 0:29. -/
theorem c2_witness :
    (loopStep rollTimer (iQuiet 600)).timeStart = (4294966796 + 1000) % U32 ∧
    60 * (loopStep rollTimer (iQuiet 600)).minutes
        + (loopStep rollTimer (iQuiet 600)).seconds = 29 ∧
    u32Sub (iQuiet 600).now (loopStep rollTimer (iQuiet 600)).timeStart = 100 := by
  have h := (c2_running_tick rollTimer (iQuiet 600) rfl (by decide)
      (by decide)).1 (by decide) (by decide)
  exact ⟨h.1, by rw [h.2.1]; decide, by rw [h.2.2]; decide⟩

/-- Claim C3: for every set point within 0 and TIME_MAX_SP, processing the
S_INIT state sets seconds to (setPoint*5) mod 60 and minutes to (setPoint*5)/60
clamped to at most 99, and transitions unconditionally to S_IDLE. -/
theorem c3_init_conversion (t : Timer) (inp : Input)
    (hst : t.state = State.S_INIT) (hsp : t.setPoint ≤ TIME_MAX_SP) :
    (loopStep t inp).seconds = ((t.setPoint * 5) % 60 : Nat) ∧
    (loopStep t inp).minutes = min (((t.setPoint * 5) / 60 : Nat) : Int) 99 ∧
    (loopStep t inp).state = State.S_IDLE := by
  obtain ⟨e1, e2, e3⟩ := initFields t inp hst hsp
  refine ⟨e1, ?_, e3⟩
  have hsp' : t.setPoint ≤ 1199 := TIME_MAX_SP_eq ▸ hsp
  rw [e2]
  omega

/-- Witness for C3 at the maximal set point 1199: 5995 total seconds give
99 minutes and 55 seconds. -/
theorem c3_witness :
    (loopStep c3Timer (iQuiet 0)).seconds = 55 ∧
    (loopStep c3Timer (iQuiet 0)).minutes = 99 ∧
    (loopStep c3Timer (iQuiet 0)).state = State.S_IDLE := by
  obtain ⟨e1, e2, e3⟩ := c3_init_conversion c3Timer (iQuiet 0) rfl (by decide)
  exact ⟨by rw [e1]; decide, by rw [e2]; decide, e3⟩

/-- Claim C5: running at 0:00, the very next loop pass whose elapsed time
reaches 1000 ms (with no simultaneous pause press) transitions to S_END, and
minutes and seconds never become negative in any reachable state. -/
theorem c5_zero_next_tick (t : Timer) (inp : Input)
    (hst : t.state = State.S_RUNNING) (hm : t.minutes = 0) (hs : t.seconds = 0)
    (htick : u32Sub inp.now t.timeStart ≥ 1000)
    (hkey : inp.key ≠ KeyEv.KS_PRESS) :
    (loopStep t inp).state = State.S_END ∧
    (∀ t2 i2, TimerInv t2 →
      0 ≤ (loopStep t2 i2).minutes ∧ 0 ≤ (loopStep t2 i2).seconds) := by
  constructor
  · have htk : tickTimer t inp.now =
        { t with timeStart := (t.timeStart + 1000) % U32, seconds := 59,
                 state := State.S_END } := by
      unfold tickTimer
      rw [if_pos htick, if_neg (by simp [hs]), if_neg (by simp [hm])]
    rw [loopStep_running_eq t inp hst, if_neg hkey, htk]
  · intro t2 i2 h2
    obtain ⟨_, k2, _, k4, _, _⟩ := timerInv_step t2 i2 h2
    exact ⟨k2, k4⟩

/-- Witness for C5: a running 0:00 state whose tick fires at 1000 ms. -/
theorem c5_witness :
    (loopStep zeroTimer (iQuiet 1000)).state = State.S_END ∧
    0 ≤ (loopStep startTimer (iQuiet 0)).minutes ∧
    0 ≤ (loopStep startTimer (iQuiet 0)).seconds := by
  have h := c5_zero_next_tick zeroTimer (iQuiet 1000) rfl rfl rfl
      (by decide) (by decide)
  exact ⟨h.1, (h.2 startTimer (iQuiet 0) (by decide)).1,
    (h.2 startTimer (iQuiet 0) (by decide)).2⟩

/-- Claim C6: the set point is mutated only in the S_IDLE state; there, a
clockwise step increments it only below TIME_MAX_SP, a counter-clockwise step
decrements it only above 0, and along every input sequence it never leaves
the range 0 to TIME_MAX_SP and never wraps. -/
theorem c6_setpoint (t : Timer) (inp : Input) :
    (t.state ≠ State.S_IDLE → (loopStep t inp).setPoint = t.setPoint) ∧
    (t.state = State.S_IDLE → (loopStep t inp).setPoint = encoderSp t.setPoint inp.enc) ∧
    (encoderSp t.setPoint EncDir.DIR_CW
      = if t.setPoint < TIME_MAX_SP then t.setPoint + 1 else t.setPoint) ∧
    (encoderSp t.setPoint EncDir.DIR_CCW
      = if 0 < t.setPoint then t.setPoint - 1 else t.setPoint) ∧
    (encoderSp t.setPoint EncDir.DIR_NONE = t.setPoint) ∧
    (∀ ins : List Input, t.setPoint ≤ TIME_MAX_SP →
      (run t ins).setPoint ≤ TIME_MAX_SP) := by
  refine ⟨?_, ?_, rfl, rfl, rfl, ?_⟩
  · intro hne
    cases hst : t.state
    case S_IDLE => exact absurd hst hne
    case S_INIT => rw [loopStep_init_eq t inp hst]
    case S_START => rw [loopStep_start_eq t inp hst]
    case S_RUNNING =>
      rw [loopStep_running_eq t inp hst]
      have := (tickTimer_fields t inp.now).1
      split_ifs <;> simp_all
    case S_PAUSE =>
      rw [loopStep_pause_eq t inp hst]
      cases inp.key <;> rfl
    case S_END => rw [loopStep_end_eq t inp hst]
  · intro hst
    rw [loopStep_idle_eq t inp hst]
  · intro ins
    induction ins generalizing t with
    | nil => exact fun h => h
    | cons i rest ih =>
        intro h
        exact ih (loopStep t i) (setPoint_le_step t i h)

/-- Witness for C6: at the maximal set point in S_IDLE a clockwise step does
not move the set point, and a full input sequence keeps it within range. -/
theorem c6_witness :
    (loopStep { c3Timer with state := State.S_IDLE }
        { now := 0, enc := EncDir.DIR_CW, key := KeyEv.KS_NULL }).setPoint
      = encoderSp 1199 EncDir.DIR_CW ∧
    (run { c3Timer with state := State.S_IDLE } c4Inputs).setPoint ≤ TIME_MAX_SP := by
  have h := c6_setpoint { c3Timer with state := State.S_IDLE }
      { now := 0, enc := EncDir.DIR_CW, key := KeyEv.KS_NULL }
  exact ⟨h.2.1 rfl, h.2.2.2.2.2 c4Inputs (by decide)⟩

/-- Claim C7: pausing from S_RUNNING with no pending tick and immediately
resuming leaves minutes and seconds unchanged; the S_PAUSE state never
modifies minutes, seconds or the set point, and resuming rebases timeStart to
the current millis reading. -/
theorem c7_pause_resume (t : Timer) (i1 i2 : Input)
    (hst : t.state = State.S_RUNNING)
    (hkey1 : i1.key = KeyEv.KS_PRESS)
    (hnotick : u32Sub i1.now t.timeStart < 1000)
    (hkey2 : i2.key = KeyEv.KS_PRESS) :
    (loopStep t i1).state = State.S_PAUSE ∧
    (loopStep (loopStep t i1) i2).state = State.S_RUNNING ∧
    (loopStep (loopStep t i1) i2).minutes = t.minutes ∧
    (loopStep (loopStep t i1) i2).seconds = t.seconds ∧
    (loopStep (loopStep t i1) i2).timeStart = i2.now % U32 ∧
    (∀ tq iq, tq.state = State.S_PAUSE →
      (loopStep tq iq).minutes = tq.minutes ∧
      (loopStep tq iq).seconds = tq.seconds ∧
      (loopStep tq iq).setPoint = tq.setPoint) := by
  have htk : tickTimer t i1.now = t := by
    unfold tickTimer
    rw [if_neg (by omega)]
  have hp : loopStep t i1 = { t with state := State.S_PAUSE } := by
    rw [loopStep_running_eq t i1 hst, if_pos hkey1, htk]
  have hres : loopStep { t with state := State.S_PAUSE } i2 =
      { t with timeStart := i2.now % U32, inMessage := false,
               state := State.S_RUNNING } := by
    rw [loopStep_pause_eq { t with state := State.S_PAUSE } i2 rfl, hkey2]
  rw [hp, hres]
  refine ⟨rfl, rfl, rfl, rfl, rfl, ?_⟩
  intro tq iq htq
  rw [loopStep_pause_eq tq iq htq]
  cases iq.key <;> exact ⟨rfl, rfl, rfl⟩

/-- Witness for C7: pause at 20400 ms (400 ms into the current second) and
resume at 23000 ms leaves 0:11 unchanged and rebases timeStart to 23000. -/
theorem c7_witness :
    (loopStep c7Timer { now := 20400, enc := EncDir.DIR_NONE, key := KeyEv.KS_PRESS }).state
      = State.S_PAUSE ∧
    (loopStep (loopStep c7Timer { now := 20400, enc := EncDir.DIR_NONE, key := KeyEv.KS_PRESS })
        { now := 23000, enc := EncDir.DIR_NONE, key := KeyEv.KS_PRESS }).minutes = 0 ∧
    (loopStep (loopStep c7Timer { now := 20400, enc := EncDir.DIR_NONE, key := KeyEv.KS_PRESS })
        { now := 23000, enc := EncDir.DIR_NONE, key := KeyEv.KS_PRESS }).seconds = 11 ∧
    (loopStep (loopStep c7Timer { now := 20400, enc := EncDir.DIR_NONE, key := KeyEv.KS_PRESS })
        { now := 23000, enc := EncDir.DIR_NONE, key := KeyEv.KS_PRESS }).timeStart = 23000 := by
  have h := c7_pause_resume c7Timer
      { now := 20400, enc := EncDir.DIR_NONE, key := KeyEv.KS_PRESS }
      { now := 23000, enc := EncDir.DIR_NONE, key := KeyEv.KS_PRESS }
      rfl rfl (by decide) rfl
  exact ⟨h.1, h.2.2.1, h.2.2.2.1, h.2.2.2.2.1⟩

/-- Claim C10: when the tick fires while running at 0:00 (and no pause press
intervenes), the stored duration at entry to S_END is 0 minutes and 59
seconds, not 0:00; the S_END pass leaves minutes and seconds untouched, and
only the S_INIT reconversion from the set point restores them. -/
theorem c10_ended_stores_59 (t : Timer) (inp : Input)
    (hst : t.state = State.S_RUNNING) (hm : t.minutes = 0) (hs : t.seconds = 0)
    (htick : u32Sub inp.now t.timeStart ≥ 1000)
    (hkey : inp.key ≠ KeyEv.KS_PRESS) :
    (loopStep t inp).state = State.S_END ∧
    (loopStep t inp).minutes = 0 ∧
    (loopStep t inp).seconds = 59 ∧
    (∀ te ie, te.state = State.S_END →
      (loopStep te ie).state = State.S_INIT ∧
      (loopStep te ie).minutes = te.minutes ∧
      (loopStep te ie).seconds = te.seconds) ∧
    (∀ ti ii, ti.state = State.S_INIT → ti.setPoint ≤ TIME_MAX_SP →
      (loopStep ti ii).seconds = ((ti.setPoint * 5) % 60 : Nat) ∧
      (loopStep ti ii).minutes = ((ti.setPoint * 5) / 60 : Nat)) := by
  have htk : tickTimer t inp.now =
      { t with timeStart := (t.timeStart + 1000) % U32, seconds := 59,
               state := State.S_END } := by
    unfold tickTimer
    rw [if_pos htick, if_neg (by simp [hs]), if_neg (by simp [hm])]
  rw [loopStep_running_eq t inp hst, if_neg hkey, htk]
  refine ⟨rfl, hm, rfl, ?_, ?_⟩
  · intro te ie hte
    rw [loopStep_end_eq te ie hte]
    exact ⟨rfl, rfl, rfl⟩
  · intro ti ii hti hle
    obtain ⟨e1, e2, _⟩ := initFields ti ii hti hle
    exact ⟨e1, e2⟩

/-- Counterexample to claim C1 as stated: after dialling set point 1 and
pressing the key, the loop boundary observes state S_START with the relay
still low, so the relay is not true exactly on the states S_START, S_RUNNING
and S_PAUSE at every observed boundary. -/
theorem c1_counterexample :
    ¬ (((run startTimer c1Inputs).relay = true) ↔
        ((run startTimer c1Inputs).state = State.S_START ∨
         (run startTimer c1Inputs).state = State.S_RUNNING ∨
         (run startTimer c1Inputs).state = State.S_PAUSE)) := by
  decide

/-- Claim C1 (amended): at every loop boundary the relay is true exactly in
the states S_RUNNING, S_PAUSE and S_END (it is raised while processing
S_START and lowered while processing S_END); the invariant holds at power-up,
is preserved by every pass, and the relay level changes only during a pass
that also changes the state, namely the S_START and S_END passes. -/
theorem c1_relay_invariant (t : Timer) (inp : Input) (h : RelayInv t) :
    RelayInv startTimer ∧
    RelayInv (loopStep t inp) ∧
    ((loopStep t inp).relay ≠ t.relay →
      (t.state = State.S_START ∨ t.state = State.S_END) ∧
      (loopStep t inp).state ≠ t.state) := by
  refine ⟨by decide, ?_, ?_⟩
  · unfold RelayInv at h ⊢
    cases hst : t.state
    case S_INIT =>
      rw [loopStep_init_eq t inp hst]
      rw [hst] at h
      simp_all
    case S_IDLE =>
      rw [loopStep_idle_eq t inp hst]
      rw [hst] at h
      split_ifs <;> simp_all
    case S_START =>
      rw [loopStep_start_eq t inp hst]
      simp
    case S_RUNNING =>
      rw [hst] at h
      have hrel : t.relay = true := h.mpr (Or.inl rfl)
      rw [loopStep_running_eq t inp hst]
      obtain ⟨_, hr, _⟩ := tickTimer_fields t inp.now
      rcases tickTimer_state t inp.now with hks | hks
      · split_ifs <;> simp_all
      · split_ifs <;> simp_all
    case S_PAUSE =>
      rw [hst] at h
      have hrel : t.relay = true := h.mpr (Or.inr (Or.inl rfl))
      rw [loopStep_pause_eq t inp hst]
      cases inp.key <;> simp_all
    case S_END =>
      rw [loopStep_end_eq t inp hst]
      simp
  · intro hch
    cases hst : t.state
    case S_START =>
      refine ⟨Or.inl rfl, ?_⟩
      rw [loopStep_start_eq t inp hst]
      simp
    case S_END =>
      refine ⟨Or.inr rfl, ?_⟩
      rw [loopStep_end_eq t inp hst]
      simp
    case S_INIT => exact absurd (by rw [loopStep_init_eq t inp hst]) hch
    case S_IDLE => exact absurd (by rw [loopStep_idle_eq t inp hst]) hch
    case S_RUNNING =>
      exfalso
      apply hch
      rw [loopStep_running_eq t inp hst]
      obtain ⟨_, hr, _⟩ := tickTimer_fields t inp.now
      split_ifs <;> simp_all
    case S_PAUSE =>
      exfalso
      apply hch
      rw [loopStep_pause_eq t inp hst]
      cases inp.key <;> rfl

/-- Witness for C1 (amended) at a concrete running state. -/
theorem c1_witness :
    RelayInv (loopStep rollTimer (iQuiet 600)) := by
  exact (c1_relay_invariant rollTimer (iQuiet 600) (by decide)).2.1

/-- Claim C4: with set point 1 (5 seconds), arming at 10000 ms and running
without pause, the timer is still running after the 15500 ms pass (5500 ms
after arming, remaining 0:00) and enters S_END on the tick of the 16000 ms
pass, 6000 ms after arming; over the whole run the relay falls from true to
false exactly once. -/
theorem c4_five_second_scenario :
    (run startTimer (c4Inputs.take 3)).minutes = 0 ∧
    (run startTimer (c4Inputs.take 3)).seconds = 5 ∧
    (run startTimer (c4Inputs.take 5)).state = State.S_RUNNING ∧
    (run startTimer (c4Inputs.take 5)).timeStart = 10000 ∧
    (run startTimer (c4Inputs.take 5)).relay = true ∧
    (run startTimer (c4Inputs.take 12)).state = State.S_RUNNING ∧
    (run startTimer (c4Inputs.take 13)).state = State.S_END ∧
    (run startTimer c4Inputs).state = State.S_INIT ∧
    (run startTimer c4Inputs).relay = false ∧
    fallCount (relayTrace startTimer c4Inputs) = 1 := by
  decide

/-- Witness for C10: the 0:00 tick stores 0:59 on entering S_END. -/
theorem c10_witness :
    (loopStep zeroTimer (iQuiet 1500)).state = State.S_END ∧
    (loopStep zeroTimer (iQuiet 1500)).minutes = 0 ∧
    (loopStep zeroTimer (iQuiet 1500)).seconds = 59 := by
  have h := c10_ended_stores_59 zeroTimer (iQuiet 1500) rfl rfl rfl
      (by decide) (by decide)
  exact ⟨h.1, h.2.1, h.2.2.1⟩

/-- Counterexample to claim C8 as stated: rendering 1205 with decimal digit
index 2 does put up the digit patterns of 1, 2, 0, 5 left to right, but the
decimal-point bit (0x80) lands on the second-from-left pattern (index 1 of
the left-to-right list), not on the third-from-left pattern (index 2): the
decDigit argument counts digit positions from the rightmost digit. -/
theorem c8_counterexample :
    ((patternsLTR 1205 2).getD 2 0) / 128 = 0 ∧
    ((patternsLTR 1205 2).getD 1 0) / 128 = 1 ∧
    patternsLTR 1205 2 ≠
      [digits.getD 1 0, digits.getD 2 0, digits.getD 0 0 + DECIMAL, digits.getD 5 0] := by
  decide

/-- Claim C8 (amended): rendering 1205 with decimal digit index 2 produces
the digit patterns of 1, 2, 0, 5 in left-to-right order, the most significant
digit at the leftmost position, with the decimal-point bit set on the
second-from-left pattern, because the index counts from the rightmost
digit. -/
theorem c8_render_1205 :
    patternsLTR 1205 2 =
      [digits.getD 1 0, digits.getD 2 0 + DECIMAL, digits.getD 0 0, digits.getD 5 0] := by
  decide

/-! Multiplexing-order machinery for claim C9. -/

theorem setLine_add4 (s : DigitLines) (n : Nat) (b : Bool) :
    setLine s (n + 4) b = s := rfl

theorem runEvents_sweepStep (s : DigitLines) (v i : Nat) :
    runEvents s (sweepStep v i) = setLine offLines i true := rfl

theorem onCount_setLine_off (i : Nat) : onCount (setLine offLines i true) ≤ 1 := by
  rcases i with _ | _ | _ | _ | n
  · decide
  · decide
  · decide
  · decide
  · rw [setLine_add4]
    decide

theorem okTrace_sweepStep (s : DigitLines) (v i : Nat) (h : onCount s ≤ 1) :
    okTrace s (sweepStep v i) = true := by
  obtain ⟨a, b, c, d⟩ := s
  rcases i with _ | _ | _ | _ | n <;>
    cases a <;> cases b <;> cases c <;> cases d <;>
    simp_all [sweepStep, okTrace, stepEvent, setLine, setLine_add4, onCount]

theorem okTrace_append (s : DigitLines) (xs ys : List DispEvent) :
    okTrace s (xs ++ ys) = (okTrace s xs && okTrace (runEvents s xs) ys) := by
  induction xs generalizing s with
  | nil => simp [okTrace, runEvents]
  | cons e es ih =>
      simp only [List.cons_append, okTrace, runEvents, List.foldl_cons, List.append_eq]
      rw [ih]
      rw [Bool.and_assoc]
      rfl

theorem okTrace_displayTimeAux (decDigit val i n : Nat) (s : DigitLines)
    (h : onCount s ≤ 1) :
    okTrace s (displayTimeAux decDigit val i n) = true := by
  induction n generalizing val i s with
  | zero => rfl
  | succ n ih =>
      rw [displayTimeAux, okTrace_append, okTrace_sweepStep s _ i h,
        runEvents_sweepStep, Bool.true_and]
      exact ih _ _ _ (onCount_setLine_off i)

theorem okTrace_displayMessageAux (p : List Char) (n : Nat) (s : DigitLines)
    (h : onCount s ≤ 1) :
    okTrace s (displayMessageAux p n) = true := by
  induction n generalizing p s with
  | zero => cases p <;> rfl
  | succ n ih =>
      cases p with
      | nil =>
          rw [displayMessageAux, okTrace_append, okTrace_sweepStep s _ n h,
            runEvents_sweepStep, Bool.true_and]
          exact ih _ _ (onCount_setLine_off n)
      | cons c rest =>
          rw [displayMessageAux, okTrace_append, okTrace_sweepStep s _ n h,
            runEvents_sweepStep, Bool.true_and]
          exact ih _ _ (onCount_setLine_off n)

theorem blocksShaped_sweep (v i : Nat) (rest : List DispEvent) (h : i < 4) :
    blocksShaped (sweepStep v i ++ rest) = blocksShaped rest := by
  simp [sweepStep, blocksShaped, h]

theorem blocksShaped_displayTimeAux (decDigit val i n : Nat) (h : i + n ≤ 4) :
    blocksShaped (displayTimeAux decDigit val i n) = true := by
  induction n generalizing val i with
  | zero => rfl
  | succ n ih =>
      rw [displayTimeAux, blocksShaped_sweep _ _ _ (by omega)]
      exact ih _ _ (by omega)

theorem blocksShaped_displayMessageAux (p : List Char) (n : Nat) (h : n ≤ 4) :
    blocksShaped (displayMessageAux p n) = true := by
  induction n generalizing p with
  | zero => cases p <;> rfl
  | succ n ih =>
      cases p with
      | nil =>
          rw [displayMessageAux, blocksShaped_sweep _ _ _ (by omega)]
          exact ih _ (by omega)
      | cons c rest =>
          rw [displayMessageAux, blocksShaped_sweep _ _ _ (by omega)]
          exact ih _ (by omega)

/-- Claim C9: in both rendering routines, every digit slot first disables all
four digit-select lines, then commits the new segment pattern, and only then
enables exactly one existing digit-select line (blocksShaped); consequently,
starting from any line state with at most one digit enabled, after every
single pin operation at most one digit-select line is enabled. -/
theorem c9_mux_ordering (val decDigit : Nat) (mesg : List Char) (s : DigitLines)
    (h : onCount s ≤ 1) :
    blocksShaped (displayTimeEvents val decDigit) = true ∧
    blocksShaped (displayMessageSweep mesg) = true ∧
    okTrace s (displayTimeEvents val decDigit) = true ∧
    okTrace s (displayMessageSweep mesg) = true := by
  refine ⟨blocksShaped_displayTimeAux _ _ 0 4 (by omega),
    blocksShaped_displayMessageAux _ 4 (by omega),
    okTrace_displayTimeAux _ _ 0 4 s h,
    okTrace_displayMessageAux _ 4 s h⟩

/-- Witness for C9: the countdown frame 1205 and the end message, starting
with all digit lines off. -/
theorem c9_witness :
    blocksShaped (displayTimeEvents 1205 2) = true ∧
    blocksShaped (displayMessageSweep ['e', 'n', 'd']) = true ∧
    okTrace offLines (displayTimeEvents 1205 2) = true ∧
    okTrace offLines (displayMessageSweep ['e', 'n', 'd']) = true :=
  c9_mux_ordering 1205 2 ['e', 'n', 'd'] offLines (by decide)

end RelayTimer
